import Mathlib

/-
Verification of the mkswap library (src/src/lib.rs): a builder that writes a
Linux swap-area header into a seekable byte sink.

Embedding notes.
* Byte sequences (UTF-8 labels, UUID bytes, the destination's contents) are
  `List Nat`, one entry per byte.
* The destination handle is modelled after `std::io::Cursor<Vec<u8>>`, the
  handle used by the crate's own doc example and test: a byte list plus a
  cursor position.  A seek to an absolute offset always succeeds; a write at
  position `p` zero-pads the buffer up to `p` when it is shorter, overwrites
  in place, and extends at the end, exactly as `Cursor<Vec<u8>>::write` does.
* I/O fallibility is modelled with a fault oracle `Faults : Nat → Option Nat`:
  the k-th seek/position-query/write of a `write` call consults `f k`; `some e`
  makes that operation fail with (abstract) OS error code `e`, `none` lets it
  succeed.  `noFaults` is the oracle under which every operation succeeds.
* Machine integers are `Nat` with explicit bounds where Rust's semantics make
  them matter: `u64::try_from(usize)` fails exactly for values ≥ 2^64, the
  `u32::try_from(u64)` narrowing of the page count is `unwrap_or(u32::MAX)`
  (saturation), and the two arithmetic operations that can abort —
  `total_size_bytes / page_size` with a zero divisor (always a Rust panic) and
  `page_size - 10` underflow (a Rust panic in overflow-checked builds) — are
  modelled by an explicit `Outcome.panicked` result.
* `to_ne_bytes` (host-native byte order) is parameterised by a flag
  `le : Bool`: `true` means a little-endian host, `false` a big-endian one.
* Rust's `uuid::Uuid::as_bytes` is the identifier's 16 raw bytes; a UUID value
  is therefore modelled directly as its byte list.  The random UUID drawn by
  `Uuid::new_v4` when none is configured, and the host page size returned by
  `page_size::get()`, enter the model as parameters of `write`.
-/

namespace Mkswap

/-- `MAXIMUM_LABEL_BYTES` from the source. -/
def MAXIMUM_LABEL_BYTES : Nat := 16

/-- `MINIMUM_PAGES` from the source. -/
def MINIMUM_PAGES : Nat := 10

/-- Largest value representable in a `u32` (`u32::MAX`). -/
def U32_MAX : Nat := 2 ^ 32 - 1

/-- Number of values of a `u64`; `u64::try_from` on a wider value fails at this bound. -/
def U64_CARD : Nat := 2 ^ 64

/-- The 10 ASCII bytes of the magic signature `b"SWAPSPACE2"`. -/
def MAGIC : List Nat := [83, 87, 65, 80, 83, 80, 65, 67, 69, 50]

/-- The builder `SwapWriter`: four optional fields, all defaultable at write
time.  The `uuid` and `label` fields hold raw bytes (`Uuid::as_bytes`,
`String::as_bytes`). -/
structure SwapWriter where
  uuid : Option (List Nat)
  label : Option (List Nat)
  page_size : Option Nat
  size : Option Nat
deriving DecidableEq

/-- `SwapWriter::new()`: all-default `None`s. -/
def SwapWriter.new : SwapWriter := ⟨none, none, none, none⟩

/-- The error enum of the crate.  `GiganticPageSize` carries a
`TryFromIntError` (no useful data); `SizeDetection` and `WriteHeader` carry an
`std::io::Error`, abstracted to a numeric code. -/
inductive Error where
  | GiganticPageSize : Error
  | SizeDetection : Nat → Error
  | LabelTooLong : Error
  | TooFewPages : Nat → Error
  | WriteHeader : Nat → Error
deriving DecidableEq

/-- `SwapWriter::label` (the setter, lines 82-89): rejects byte length
`> MAXIMUM_LABEL_BYTES` with `LabelTooLong`, otherwise stores the label. -/
def SwapWriter.set_label (w : SwapWriter) (l : List Nat) : Except Error SwapWriter :=
  if MAXIMUM_LABEL_BYTES < l.length then Except.error Error.LabelTooLong
  else Except.ok { w with label := some l }

/-- The destination handle: buffer contents plus cursor position
(`Cursor<Vec<u8>>`). -/
structure Dest where
  data : List Nat
  pos : Nat
deriving DecidableEq

/-- A destination of `n` zero bytes with the cursor at the start. -/
def zeroDest (n : Nat) : Dest := ⟨List.replicate n 0, 0⟩

/-- Fault oracle for the destination's operations: `f k = some e` makes the
k-th I/O operation of the call fail with error code `e`. -/
def Faults : Type := Nat → Option Nat

/-- The oracle under which every seek, position query and write succeeds. -/
def noFaults : Faults := fun _ => none

/-- Handle state threaded through one `write` call: the destination plus the
index of the next I/O operation (consulted in the fault oracle). -/
structure HandleState where
  d : Dest
  t : Nat

/-- Overwrite the front of `data` with `bs`, extending `data` when `bs` is
longer. -/
def overwrite : List Nat → List Nat → List Nat
  | data, [] => data
  | [], b :: bs => b :: overwrite [] bs
  | _ :: xs, b :: bs => b :: overwrite xs bs

/-- `Cursor<Vec<u8>>::write` at position `pos`: zero-pad the buffer up to
`pos` when it is shorter, then overwrite/extend with `bs`. -/
def writeBytes : List Nat → Nat → List Nat → List Nat
  | data, 0, bs => overwrite data bs
  | [], n + 1, bs => 0 :: writeBytes [] n bs
  | x :: xs, n + 1, bs => x :: writeBytes xs n bs

/-- `handle.seek(SeekFrom::Start(target))`. -/
def opSeek (f : Faults) (s : HandleState) (target : Nat) : Except (Nat × Dest) HandleState :=
  match f s.t with
  | some e => Except.error (e, s.d)
  | none => Except.ok ⟨⟨s.d.data, target⟩, s.t + 1⟩

/-- `handle.seek(SeekFrom::End(0))`: position moves to the end of the data. -/
def opSeekEnd (f : Faults) (s : HandleState) : Except (Nat × Dest) HandleState :=
  match f s.t with
  | some e => Except.error (e, s.d)
  | none => Except.ok ⟨⟨s.d.data, s.d.data.length⟩, s.t + 1⟩

/-- `handle.stream_position()`: returns the current absolute offset. -/
def opStreamPos (f : Faults) (s : HandleState) : Except (Nat × Dest) (Nat × HandleState) :=
  match f s.t with
  | some e => Except.error (e, s.d)
  | none => Except.ok (s.d.pos, ⟨s.d, s.t + 1⟩)

/-- `handle.write(bs)` at the current position (complete write, as for a
cursor over a byte vector). -/
def opWrite (f : Faults) (s : HandleState) (bs : List Nat) : Except (Nat × Dest) HandleState :=
  match f s.t with
  | some e => Except.error (e, s.d)
  | none => Except.ok ⟨⟨writeBytes s.d.data s.d.pos bs, s.d.pos + bs.length⟩, s.t + 1⟩

/-- `detect_size_bytes` (lines 181-187): seek to the end, read the resulting
absolute offset, seek back to the start, return the offset. -/
def detect_size_bytes (f : Faults) (s : HandleState) : Except (Nat × Dest) (Nat × HandleState) :=
  match opSeekEnd f s with
  | Except.error e => Except.error e
  | Except.ok s1 =>
    match opStreamPos f s1 with
    | Except.error e => Except.error e
    | Except.ok (size, s2) =>
      match opSeek f s2 0 with
      | Except.error e => Except.error e
      | Except.ok s3 => Except.ok (size, s3)

/-- Result of `SwapWriter::write`: success with the returned total size and
the final destination, an error with the destination as the call left it, or
a Rust panic (divide by zero, or `page_size - 10` underflow in
overflow-checked builds). -/
inductive Outcome where
  | ok : Nat → Dest → Outcome
  | err : Error → Dest → Outcome
  | panicked : Outcome
deriving DecidableEq

/-- `u32::to_ne_bytes`: the four bytes of `n` in the host's native order
(`le = true`: little-endian host, `le = false`: big-endian host). -/
def u32NeBytes (le : Bool) (n : Nat) : List Nat :=
  if le then [n % 256, n / 256 % 256, n / 256 ^ 2 % 256, n / 256 ^ 3 % 256]
  else [n / 256 ^ 3 % 256, n / 256 ^ 2 % 256, n / 256 % 256, n % 256]

/-- `(total_size_bytes / page_size).try_into().unwrap_or(u32::MAX)` (lines
126-128): the page count narrowed to `u32`, saturating at `u32::MAX`.
Callers must separately rule out `page_size = 0`, where the Rust division
itself panics. -/
def pagesU32 (total ps : Nat) : Nat := min (total / ps) U32_MAX

/-- Lines 126-157 of `SwapWriter::write`: page-count computation and header
emission, after the four configuration fields have been resolved to `uuid`,
`label`, `ps` and `total`.  `s` is the handle state (its operation counter
accounts for any size-detection I/O already performed). -/
def emitHeader (le : Bool) (uuid label : List Nat) (ps total : Nat)
    (f : Faults) (s : HandleState) : Outcome :=
  if ps = 0 then Outcome.panicked
  else
    let pages := pagesU32 total ps
    if pages < MINIMUM_PAGES then Outcome.err (Error.TooFewPages pages) s.d
    else
      match opSeek f s 1024 with
      | Except.error (e, d) => Outcome.err (Error.WriteHeader e) d
      | Except.ok s1 =>
      match opWrite f s1 [1, 0, 0, 0] with
      | Except.error (e, d) => Outcome.err (Error.WriteHeader e) d
      | Except.ok s2 =>
      match opWrite f s2 (u32NeBytes le (pages - 1)) with
      | Except.error (e, d) => Outcome.err (Error.WriteHeader e) d
      | Except.ok s3 =>
      match opWrite f s3 [0, 0, 0, 0] with
      | Except.error (e, d) => Outcome.err (Error.WriteHeader e) d
      | Except.ok s4 =>
      match opWrite f s4 uuid with
      | Except.error (e, d) => Outcome.err (Error.WriteHeader e) d
      | Except.ok s5 =>
      match opWrite f s5 label with
      | Except.error (e, d) => Outcome.err (Error.WriteHeader e) d
      | Except.ok s6 =>
      if ps < 10 then Outcome.panicked
      else
      match opSeek f s6 (ps - 10) with
      | Except.error (e, d) => Outcome.err (Error.WriteHeader e) d
      | Except.ok s7 =>
      match opWrite f s7 MAGIC with
      | Except.error (e, d) => Outcome.err (Error.WriteHeader e) d
      | Except.ok s8 =>
      match opSeek f s8 0 with
      | Except.error (e, d) => Outcome.err (Error.WriteHeader e) d
      | Except.ok s9 => Outcome.ok total s9.d

/-- `SwapWriter::write` (lines 110-158).  `randUuid` stands for the 16 bytes
`Uuid::new_v4()` would draw when no identifier is configured;
`hostPageSize` stands for `page_size::get()`. -/
def SwapWriter.write (w : SwapWriter) (le : Bool) (randUuid : List Nat)
    (hostPageSize : Nat) (f : Faults) (d : Dest) : Outcome :=
  let label := w.label.getD []
  if MAXIMUM_LABEL_BYTES < label.length then Outcome.err Error.LabelTooLong d
  else
    let uuid := w.uuid.getD randUuid
    match (match w.page_size with
           | some p => Except.ok p
           | none =>
             if hostPageSize < U64_CARD then Except.ok hostPageSize
             else Except.error ()) with
    | Except.error _ => Outcome.err Error.GiganticPageSize d
    | Except.ok ps =>
      match (match w.size with
             | some sz => Except.ok (sz, (⟨d, 0⟩ : HandleState))
             | none => detect_size_bytes f ⟨d, 0⟩) with
      | Except.error (e, d') => Outcome.err (Error.SizeDetection e) d'
      | Except.ok (total, s) => emitHeader le uuid label ps total f s

/-- The destination contents a fault-free successful `write` leaves behind,
as a function of the resolved configuration: the six buffer writes of lines
133-152 — version at 1024, last page at 1028, bad-page count at 1032, the
identifier at 1036, the label right after it, and the magic at
`page_size - 10`. -/
def finalData (le : Bool) (uuid label : List Nat) (ps total : Nat)
    (data : List Nat) : List Nat :=
  let pages := pagesU32 total ps
  writeBytes
    (writeBytes
      (writeBytes
        (writeBytes
          (writeBytes
            (writeBytes data 1024 [1, 0, 0, 0])
            1028 (u32NeBytes le (pages - 1)))
          1032 [0, 0, 0, 0])
        1036 uuid)
      (1036 + uuid.length) label)
    (ps - 10) MAGIC

/-- Resolved label: the configured one, or empty (`unwrap_or_default`). -/
def resolvedLabel (w : SwapWriter) : List Nat := w.label.getD []

/-- Resolved page size: the configured one, or the host's page size. -/
def resolvedPageSize (w : SwapWriter) (hostPageSize : Nat) : Nat :=
  w.page_size.getD hostPageSize

/-- Resolved total size on a destination `d` (fault-free detection): the
configured size, or the destination's current length. -/
def resolvedSize (w : SwapWriter) (d : Dest) : Nat := w.size.getD d.data.length

/-- The bytes of `data` at offsets `off, off+1, …, off+len-1`, reading 0
beyond the end (destinations are zero-initialized or zero-padded on write). -/
def readBytes (data : List Nat) (off len : Nat) : List Nat :=
  (List.range len).map fun i => data.getD (off + i) 0

/-- The destination a finished call leaves behind, when it did not panic. -/
def destOf : Outcome → Option Dest
  | Outcome.ok _ d => some d
  | Outcome.err _ d => some d
  | Outcome.panicked => none

/-- On success, the four bytes of the version field (offset 1024). -/
def versionFieldOf : Outcome → Option (List Nat)
  | Outcome.ok _ d => some (readBytes d.data 1024 4)
  | _ => none

/-- On success, the `len` bytes of the label field (offset 1052). -/
def labelFieldOf (o : Outcome) (len : Nat) : Option (List Nat) :=
  match o with
  | Outcome.ok _ d => some (readBytes d.data 1052 len)
  | _ => none

/-- On success, the destination byte at offset `k`. -/
def byteAtOf (o : Outcome) (k : Nat) : Option Nat :=
  match o with
  | Outcome.ok _ d => some (d.data.getD k 0)
  | _ => none

/-- The 16 bytes of the UUID `87705c6e-9673-4283-b33a-b87dbf6ec490` used by
the crate's own `mkswap_compare` test (`Uuid::as_bytes` order). -/
def sampleUuid : List Nat :=
  [0x87, 0x70, 0x5c, 0x6e, 0x96, 0x73, 0x42, 0x83,
   0xb3, 0x3a, 0xb8, 0x7d, 0xbf, 0x6e, 0xc4, 0x90]

/-- The 4 UTF-8 bytes of the label `"🔀"` (U+1F500). -/
def shuffleLabel : List Nat := [240, 159, 148, 128]

/-- The configuration of the byte-exact scenario: identifier
`87705c6e-9673-4283-b33a-b87dbf6ec490`, label `"🔀"`, page size 4096, total
size left to auto-detection. -/
def c1Writer : SwapWriter := ⟨some sampleUuid, some shuffleLabel, some 4096, none⟩

/-! ## General lemmas about the byte-buffer model -/

lemma getD_replicate_zero (n k : Nat) : (List.replicate n (0 : Nat)).getD k 0 = 0 := by
  induction n generalizing k with
  | zero => simp [List.getD_nil]
  | succ m ih =>
    cases k <;> simp [List.replicate, List.getD_cons_zero, List.getD_cons_succ, ih]

lemma overwrite_getD (data bs : List Nat) (k : Nat) :
    (overwrite data bs).getD k 0 =
      if k < bs.length then bs.getD k 0 else data.getD k 0 := by
  induction bs generalizing data k with
  | nil => simp [overwrite]
  | cons b bs ih =>
    cases data with
    | nil =>
      cases k with
      | zero => simp [overwrite, List.getD_cons_zero]
      | succ k =>
        simp only [overwrite, List.getD_cons_succ, ih, List.length_cons,
          List.getD_nil, Nat.succ_lt_succ_iff]
    | cons x xs =>
      cases k with
      | zero => simp [overwrite, List.getD_cons_zero]
      | succ k =>
        simp only [overwrite, List.getD_cons_succ, ih, List.length_cons,
          Nat.succ_lt_succ_iff]

lemma writeBytes_getD (data : List Nat) (p : Nat) (bs : List Nat) (k : Nat) :
    (writeBytes data p bs).getD k 0 =
      if p ≤ k ∧ k < p + bs.length then bs.getD (k - p) 0 else data.getD k 0 := by
  induction p generalizing data bs k with
  | zero =>
    simp only [writeBytes, overwrite_getD, Nat.zero_add, Nat.sub_zero]
    have hc : (0 ≤ k ∧ k < bs.length) ↔ k < bs.length := by omega
    rw [if_congr hc rfl rfl]
  | succ n ih =>
    cases data with
    | nil =>
      cases k with
      | zero => simp [writeBytes, List.getD_cons_zero, List.getD_nil]
      | succ k =>
        simp only [writeBytes, List.getD_cons_succ, ih, List.getD_nil]
        have hc : (n + 1 ≤ k + 1 ∧ k + 1 < n + 1 + bs.length) ↔
            (n ≤ k ∧ k < n + bs.length) := by omega
        rw [if_congr hc rfl rfl, Nat.succ_sub_succ]
    | cons x xs =>
      cases k with
      | zero => simp [writeBytes, List.getD_cons_zero]
      | succ k =>
        simp only [writeBytes, List.getD_cons_succ, ih]
        have hc : (n + 1 ≤ k + 1 ∧ k + 1 < n + 1 + bs.length) ↔
            (n ≤ k ∧ k < n + bs.length) := by omega
        rw [if_congr hc rfl rfl, Nat.succ_sub_succ]

lemma readBytes_congr (l₁ l₂ : List Nat) (off len : Nat)
    (h : ∀ i, i < len → l₁.getD (off + i) 0 = l₂.getD (off + i) 0) :
    readBytes l₁ off len = readBytes l₂ off len := by
  unfold readBytes
  apply List.map_congr_left
  intro a ha
  exact h a (List.mem_range.mp ha)

lemma readBytes_writeBytes_of_le (data bs : List Nat) (p off len : Nat)
    (h : off + len ≤ p) :
    readBytes (writeBytes data p bs) off len = readBytes data off len := by
  apply readBytes_congr
  intro i hi
  rw [writeBytes_getD, if_neg]
  omega

lemma readBytes_eq_target (l target : List Nat) (off : Nat)
    (h : ∀ i, i < target.length → l.getD (off + i) 0 = target.getD i 0) :
    readBytes l off target.length = target := by
  apply List.ext_getElem
  · simp [readBytes]
  · intro i h1 h2
    simp only [readBytes, List.getElem_map, List.getElem_range]
    rw [h i h2]
    simp [List.getD_eq_getElem?_getD, List.getElem?_eq_getElem h2]

lemma u32NeBytes_length (le : Bool) (n : Nat) : (u32NeBytes le n).length = 4 := by
  cases le <;> simp [u32NeBytes]

/-! ## Reduction lemmas for fault-free I/O -/

lemma opSeek_noFaults (s : HandleState) (target : Nat) :
    opSeek noFaults s target = Except.ok ⟨⟨s.d.data, target⟩, s.t + 1⟩ := rfl

lemma opSeekEnd_noFaults (s : HandleState) :
    opSeekEnd noFaults s = Except.ok ⟨⟨s.d.data, s.d.data.length⟩, s.t + 1⟩ := rfl

lemma opStreamPos_noFaults (s : HandleState) :
    opStreamPos noFaults s = Except.ok (s.d.pos, ⟨s.d, s.t + 1⟩) := rfl

lemma opWrite_noFaults (s : HandleState) (bs : List Nat) :
    opWrite noFaults s bs =
      Except.ok ⟨⟨writeBytes s.d.data s.d.pos bs, s.d.pos + bs.length⟩, s.t + 1⟩ := rfl

lemma detect_size_bytes_noFaults (s : HandleState) :
    detect_size_bytes noFaults s =
      Except.ok (s.d.data.length, ⟨⟨s.d.data, 0⟩, s.t + 3⟩) := rfl

lemma pagesU32_ge_min (total ps : Nat) (h : 10 ≤ total / ps) :
    ¬ pagesU32 total ps < MINIMUM_PAGES := by
  have h2 : (10 : Nat) ≤ U32_MAX := by norm_num [U32_MAX]
  simp only [pagesU32, MINIMUM_PAGES]
  omega

lemma emitHeader_noFaults (le : Bool) (uuid label : List Nat) (ps total : Nat)
    (s : HandleState) (hps : 10 ≤ ps) (ht : 10 ≤ total / ps) :
    emitHeader le uuid label ps total noFaults s =
      Outcome.ok total ⟨finalData le uuid label ps total s.d.data, 0⟩ := by
  have h0 : ¬ ps = 0 := by omega
  have h10 : ¬ ps < 10 := by omega
  simp only [emitHeader, if_neg h0, if_neg (pagesU32_ge_min total ps ht),
    opSeek_noFaults, opWrite_noFaults, if_neg h10, finalData,
    List.length_cons, List.length_nil, u32NeBytes_length]

lemma write_noFaults_ok (w : SwapWriter) (le : Bool) (ru : List Nat)
    (hostPs : Nat) (d : Dest)
    (hL : (resolvedLabel w).length ≤ 16) (hHost : hostPs < U64_CARD)
    (hps : 10 ≤ resolvedPageSize w hostPs)
    (ht : 10 ≤ resolvedSize w d / resolvedPageSize w hostPs) :
    SwapWriter.write w le ru hostPs noFaults d =
      Outcome.ok (resolvedSize w d)
        ⟨finalData le (w.uuid.getD ru) (resolvedLabel w)
          (resolvedPageSize w hostPs) (resolvedSize w d) d.data, 0⟩ := by
  have hL' : ¬ MAXIMUM_LABEL_BYTES < (w.label.getD []).length := by
    simp only [resolvedLabel] at hL
    simp only [MAXIMUM_LABEL_BYTES]
    omega
  cases hp : w.page_size with
  | some p =>
    cases hs : w.size with
    | some sz =>
      simp only [SwapWriter.write, hp, hs, if_neg hL']
      rw [emitHeader_noFaults]
      · simp [resolvedSize, hs, resolvedLabel, resolvedPageSize, hp]
      · simpa [resolvedPageSize, hp] using hps
      · simpa [resolvedPageSize, resolvedSize, hp, hs] using ht
    | none =>
      simp only [SwapWriter.write, hp, hs, if_neg hL', detect_size_bytes_noFaults]
      rw [emitHeader_noFaults]
      · simp [resolvedSize, hs, resolvedLabel, resolvedPageSize, hp]
      · simpa [resolvedPageSize, hp] using hps
      · simpa [resolvedPageSize, resolvedSize, hp, hs] using ht
  | none =>
    cases hs : w.size with
    | some sz =>
      simp only [SwapWriter.write, hp, hs, if_neg hL', if_pos hHost]
      rw [emitHeader_noFaults]
      · simp [resolvedSize, hs, resolvedLabel, resolvedPageSize, hp]
      · simpa [resolvedPageSize, hp] using hps
      · simpa [resolvedPageSize, resolvedSize, hp, hs] using ht
    | none =>
      simp only [SwapWriter.write, hp, hs, if_neg hL', if_pos hHost,
        detect_size_bytes_noFaults]
      rw [emitHeader_noFaults]
      · simp [resolvedSize, hs, resolvedLabel, resolvedPageSize, hp]
      · simpa [resolvedPageSize, hp] using hps
      · simpa [resolvedPageSize, resolvedSize, hp, hs] using ht

lemma emitHeader_tooFew (le : Bool) (uuid label : List Nat) (ps total : Nat)
    (f : Faults) (s : HandleState) (h0 : ps ≠ 0) (ht : total / ps < 10) :
    emitHeader le uuid label ps total f s =
      Outcome.err (Error.TooFewPages (total / ps)) s.d := by
  have hmin : pagesU32 total ps = total / ps := by
    have h2 : (10 : Nat) ≤ U32_MAX := by norm_num [U32_MAX]
    simp only [pagesU32]
    omega
  simp only [emitHeader, if_neg h0, hmin]
  rw [if_pos]
  simp only [MINIMUM_PAGES]
  omega

lemma frame1024 (data bs : List Nat) (p : Nat) (h : 1024 ≤ p) :
    readBytes (writeBytes data p bs) 0 1024 = readBytes data 0 1024 :=
  readBytes_writeBytes_of_le _ _ _ _ _ (by omega)

lemma detect_shape (f : Faults) (s : HandleState) :
    (∃ e p, detect_size_bytes f s = Except.error (e, ⟨s.d.data, p⟩)) ∨
    detect_size_bytes f s = Except.ok (s.d.data.length, ⟨⟨s.d.data, 0⟩, s.t + 3⟩) := by
  unfold detect_size_bytes opSeekEnd opStreamPos opSeek
  rcases h0 : f s.t with _ | e0
  · rcases h1 : f (s.t + 1) with _ | e1
    · rcases h2 : f (s.t + 1 + 1) with _ | e2
      · right; simp [h0, h1, h2]
      · left; exact ⟨e2, s.d.data.length, by simp [h0, h1, h2]⟩
    · left; exact ⟨e1, s.d.data.length, by simp [h0, h1]⟩
  · left; exact ⟨e0, s.d.pos, by simp [h0]⟩

lemma emitHeader_cases (le : Bool) (uuid label : List Nat) (ps total : Nat)
    (f : Faults) (s : HandleState) (h0 : ps ≠ 0)
    (h : 10 ≤ ps ∨ total / ps < 10) :
    ∃ d', destOf (emitHeader le uuid label ps total f s) = some d' ∧
      (1024 ≤ ps - 10 → readBytes d'.data 0 1024 = readBytes s.d.data 0 1024) := by
  have hiff : pagesU32 total ps < MINIMUM_PAGES ↔ total / ps < 10 := by
    have h2 : (10 : Nat) ≤ U32_MAX := by norm_num [U32_MAX]
    simp only [pagesU32, MINIMUM_PAGES]
    omega
  unfold emitHeader
  rw [if_neg h0]
  by_cases hpg : pagesU32 total ps < MINIMUM_PAGES
  · simp only [if_pos hpg]
    exact ⟨s.d, rfl, fun _ => rfl⟩
  · have hps10 : ¬ ps < 10 := by
      rcases h with h | h
      · omega
      · exact absurd (hiff.mpr h) hpg
    simp only [if_neg hpg, if_neg hps10, opSeek, opWrite, List.length_cons,
      List.length_nil, u32NeBytes_length]
    rcases h1 : f s.t with _ | e1
    · simp only [h1]
      rcases h2 : f (s.t + 1) with _ | e2
      · simp only [h2]
        rcases h3 : f (s.t + 1 + 1) with _ | e3
        · simp only [h3]
          rcases h4 : f (s.t + 1 + 1 + 1) with _ | e4
          · simp only [h4]
            rcases h5 : f (s.t + 1 + 1 + 1 + 1) with _ | e5
            · simp only [h5]
              rcases h6 : f (s.t + 1 + 1 + 1 + 1 + 1) with _ | e6
              · simp only [h6]
                rcases h7 : f (s.t + 1 + 1 + 1 + 1 + 1 + 1) with _ | e7
                · simp only [h7]
                  rcases h8 : f (s.t + 1 + 1 + 1 + 1 + 1 + 1 + 1) with _ | e8
                  · simp only [h8]
                    rcases h9 : f (s.t + 1 + 1 + 1 + 1 + 1 + 1 + 1 + 1) with _ | e9
                    · simp only [h9]
                      refine ⟨_, rfl, fun hm => ?_⟩
                      rw [frame1024 _ _ _ (by omega), frame1024 _ _ _ (by omega),
                        frame1024 _ _ _ (by omega), frame1024 _ _ _ (by omega),
                        frame1024 _ _ _ (by omega), frame1024 _ _ _ (by omega)]
                    · simp only [h9]
                      refine ⟨_, rfl, fun hm => ?_⟩
                      rw [frame1024 _ _ _ (by omega), frame1024 _ _ _ (by omega),
                        frame1024 _ _ _ (by omega), frame1024 _ _ _ (by omega),
                        frame1024 _ _ _ (by omega), frame1024 _ _ _ (by omega)]
                  · simp only [h8]
                    refine ⟨_, rfl, fun hm => ?_⟩
                    rw [frame1024 _ _ _ (by omega), frame1024 _ _ _ (by omega),
                      frame1024 _ _ _ (by omega), frame1024 _ _ _ (by omega),
                      frame1024 _ _ _ (by omega)]
                · simp only [h7]
                  refine ⟨_, rfl, fun hm => ?_⟩
                  rw [frame1024 _ _ _ (by omega), frame1024 _ _ _ (by omega),
                    frame1024 _ _ _ (by omega), frame1024 _ _ _ (by omega),
                    frame1024 _ _ _ (by omega)]
              · simp only [h6]
                refine ⟨_, rfl, fun hm => ?_⟩
                rw [frame1024 _ _ _ (by omega), frame1024 _ _ _ (by omega),
                  frame1024 _ _ _ (by omega), frame1024 _ _ _ (by omega)]
            · simp only [h5]
              refine ⟨_, rfl, fun hm => ?_⟩
              rw [frame1024 _ _ _ (by omega), frame1024 _ _ _ (by omega),
                frame1024 _ _ _ (by omega)]
          · simp only [h4]
            refine ⟨_, rfl, fun hm => ?_⟩
            rw [frame1024 _ _ _ (by omega), frame1024 _ _ _ (by omega)]
        · simp only [h3]
          refine ⟨_, rfl, fun hm => ?_⟩
          rw [frame1024 _ _ _ (by omega)]
      · simp only [h2]
        exact ⟨_, rfl, fun _ => rfl⟩
    · simp only [h1]
      exact ⟨_, rfl, fun _ => rfl⟩

lemma write_cases (w : SwapWriter) (le : Bool) (ru : List Nat) (hostPs : Nat)
    (f : Faults) (d : Dest) (h0 : resolvedPageSize w hostPs ≠ 0)
    (h : 10 ≤ resolvedPageSize w hostPs ∨
      resolvedSize w d / resolvedPageSize w hostPs < 10) :
    ∃ d', destOf (SwapWriter.write w le ru hostPs f d) = some d' ∧
      (1024 ≤ resolvedPageSize w hostPs - 10 →
        readBytes d'.data 0 1024 = readBytes d.data 0 1024) := by
  unfold SwapWriter.write
  by_cases hL : MAXIMUM_LABEL_BYTES < (w.label.getD []).length
  · simp only [if_pos hL]
    exact ⟨d, rfl, fun _ => rfl⟩
  · simp only [if_neg hL]
    cases hp : w.page_size with
    | some p =>
      simp only [resolvedPageSize, hp, Option.getD_some] at h0 h ⊢
      cases hs : w.size with
      | some sz =>
        simp only [resolvedSize, hs, Option.getD_some] at h
        exact emitHeader_cases le (w.uuid.getD ru) (w.label.getD []) p sz f ⟨d, 0⟩ h0 h
      | none =>
        simp only [resolvedSize, hs, Option.getD_none] at h
        rcases detect_shape f ⟨d, 0⟩ with ⟨e, pp, hdet⟩ | hdet
        · simp only [hdet]
          exact ⟨⟨d.data, pp⟩, rfl, fun _ => rfl⟩
        · simp only [hdet]
          exact emitHeader_cases le (w.uuid.getD ru) (w.label.getD []) p
            d.data.length f ⟨⟨d.data, 0⟩, 3⟩ h0 h
    | none =>
      simp only [resolvedPageSize, hp, Option.getD_none] at h0 h ⊢
      by_cases hH : hostPs < U64_CARD
      · simp only [if_pos hH]
        cases hs : w.size with
        | some sz =>
          simp only [resolvedSize, hs, Option.getD_some] at h
          exact emitHeader_cases le (w.uuid.getD ru) (w.label.getD []) hostPs sz f
            ⟨d, 0⟩ h0 h
        | none =>
          simp only [resolvedSize, hs, Option.getD_none] at h
          rcases detect_shape f ⟨d, 0⟩ with ⟨e, pp, hdet⟩ | hdet
          · simp only [hdet]
            exact ⟨⟨d.data, pp⟩, rfl, fun _ => rfl⟩
          · simp only [hdet]
            exact emitHeader_cases le (w.uuid.getD ru) (w.label.getD []) hostPs
              d.data.length f ⟨⟨d.data, 0⟩, 3⟩ h0 h
      · simp only [if_neg hH]
        exact ⟨d, rfl, fun _ => rfl⟩

lemma write_noFaults_tooFew (w : SwapWriter) (le : Bool) (ru : List Nat)
    (hostPs : Nat) (d : Dest)
    (hL : (resolvedLabel w).length ≤ 16) (hHost : hostPs < U64_CARD)
    (h0 : resolvedPageSize w hostPs ≠ 0)
    (ht : resolvedSize w d / resolvedPageSize w hostPs < 10) :
    ∃ p', SwapWriter.write w le ru hostPs noFaults d =
      Outcome.err
        (Error.TooFewPages (resolvedSize w d / resolvedPageSize w hostPs))
        ⟨d.data, p'⟩ := by
  have hL' : ¬ MAXIMUM_LABEL_BYTES < (w.label.getD []).length := by
    simp only [resolvedLabel] at hL
    simp only [MAXIMUM_LABEL_BYTES]
    omega
  cases hp : w.page_size with
  | some p =>
    simp only [resolvedPageSize, hp, Option.getD_some] at h0 ht ⊢
    cases hs : w.size with
    | some sz =>
      simp only [resolvedSize, hs, Option.getD_some] at ht ⊢
      refine ⟨d.pos, ?_⟩
      simp only [SwapWriter.write, hp, hs, if_neg hL']
      rw [emitHeader_tooFew _ _ _ _ _ _ _ h0 ht]
    | none =>
      simp only [resolvedSize, hs, Option.getD_none] at ht ⊢
      refine ⟨0, ?_⟩
      simp only [SwapWriter.write, hp, hs, if_neg hL', detect_size_bytes_noFaults]
      rw [emitHeader_tooFew _ _ _ _ _ _ _ h0 ht]
  | none =>
    simp only [resolvedPageSize, hp, Option.getD_none] at h0 ht ⊢
    cases hs : w.size with
    | some sz =>
      simp only [resolvedSize, hs, Option.getD_some] at ht ⊢
      refine ⟨d.pos, ?_⟩
      simp only [SwapWriter.write, hp, hs, if_neg hL', if_pos hHost]
      rw [emitHeader_tooFew _ _ _ _ _ _ _ h0 ht]
    | none =>
      simp only [resolvedSize, hs, Option.getD_none] at ht ⊢
      refine ⟨0, ?_⟩
      simp only [SwapWriter.write, hp, hs, if_neg hL', if_pos hHost,
        detect_size_bytes_noFaults]
      rw [emitHeader_tooFew _ _ _ _ _ _ _ h0 ht]

lemma write_detect_error (w : SwapWriter) (le : Bool) (ru : List Nat)
    (hostPs : Nat) (f : Faults) (d : Dest) (e : Nat) (d₀ : Dest)
    (hsz : w.size = none)
    (hL : (resolvedLabel w).length ≤ 16) (hHost : hostPs < U64_CARD)
    (hdet : detect_size_bytes f ⟨d, 0⟩ = Except.error (e, d₀)) :
    SwapWriter.write w le ru hostPs f d = Outcome.err (Error.SizeDetection e) d₀ := by
  have hL' : ¬ MAXIMUM_LABEL_BYTES < (w.label.getD []).length := by
    simp only [resolvedLabel] at hL
    simp only [MAXIMUM_LABEL_BYTES]
    omega
  cases hp : w.page_size with
  | some p => simp only [SwapWriter.write, hp, hsz, if_neg hL', hdet]
  | none => simp only [SwapWriter.write, hp, hsz, if_neg hL', if_pos hHost, hdet]

lemma write_noFaults_detected (w : SwapWriter) (le : Bool) (ru : List Nat)
    (hostPs : Nat) (d : Dest) (hsz : w.size = none)
    (hL : (resolvedLabel w).length ≤ 16) (hHost : hostPs < U64_CARD) :
    SwapWriter.write w le ru hostPs noFaults d =
      emitHeader le (w.uuid.getD ru) (resolvedLabel w)
        (resolvedPageSize w hostPs) d.data.length noFaults ⟨⟨d.data, 0⟩, 3⟩ := by
  have hL' : ¬ MAXIMUM_LABEL_BYTES < (w.label.getD []).length := by
    simp only [resolvedLabel] at hL
    simp only [MAXIMUM_LABEL_BYTES]
    omega
  cases hp : w.page_size with
  | some p =>
    simp only [SwapWriter.write, hp, hsz, if_neg hL', detect_size_bytes_noFaults,
      resolvedLabel, resolvedPageSize, Option.getD_some]
  | none =>
    simp only [SwapWriter.write, hp, hsz, if_neg hL', if_pos hHost,
      detect_size_bytes_noFaults, resolvedLabel, resolvedPageSize, Option.getD_none]

lemma zeros4_getD (m : Nat) : ([0, 0, 0, 0] : List Nat).getD m 0 = 0 := by
  rcases m with _ | _ | _ | _ | m <;>
    simp [List.getD_cons_zero, List.getD_cons_succ, List.getD_nil]

lemma MAGIC_length : MAGIC.length = 10 := rfl

set_option maxRecDepth 10000 in
lemma finalData_getD (le : Bool) (uuid label : List Nat) (ps total : Nat)
    (data : List Nat) (k : Nat) :
    (finalData le uuid label ps total data).getD k 0 =
      if ps - 10 ≤ k ∧ k < ps - 10 + 10 then MAGIC.getD (k - (ps - 10)) 0
      else if 1036 + uuid.length ≤ k ∧ k < 1036 + uuid.length + label.length then
        label.getD (k - (1036 + uuid.length)) 0
      else if 1036 ≤ k ∧ k < 1036 + uuid.length then uuid.getD (k - 1036) 0
      else if 1032 ≤ k ∧ k < 1036 then 0
      else if 1028 ≤ k ∧ k < 1032 then
        (u32NeBytes le (pagesU32 total ps - 1)).getD (k - 1028) 0
      else if 1024 ≤ k ∧ k < 1028 then ([1, 0, 0, 0] : List Nat).getD (k - 1024) 0
      else data.getD k 0 := by
  simp only [finalData, writeBytes_getD, MAGIC_length, List.length_cons, List.length_nil,
    u32NeBytes_length]
  split_ifs <;> first | rfl | apply zeros4_getD

/-! ## Claim theorems -/

/-- Claim C1: for the configuration with total size 40960 bytes (auto-detected
from the 40960-byte zero-initialized destination), page size 4096, identifier
`87705c6e-9673-4283-b33a-b87dbf6ec490` and label `"🔀"` (4 UTF-8 bytes),
`write` on a little-endian host succeeds and produces a header with version 1
at offset 1024, last_page 9 at offset 1028, bad_page_count 0 at offset 1032,
the 16 identifier bytes at offset 1036, the 4 label bytes at offset 1052, and
the 10 ASCII bytes of `"SWAPSPACE2"` at offset 4086 = 4096 - 10. -/
theorem claim_c1 :
    ∃ dd,
      SwapWriter.write c1Writer true (List.replicate 16 0) 4096 noFaults
          (zeroDest 40960) = Outcome.ok 40960 dd
      ∧ readBytes dd.data 1024 4 = [1, 0, 0, 0]
      ∧ readBytes dd.data 1028 4 = u32NeBytes true 9
      ∧ readBytes dd.data 1032 4 = [0, 0, 0, 0]
      ∧ readBytes dd.data 1036 16 = sampleUuid
      ∧ readBytes dd.data 1052 4 = shuffleLabel
      ∧ readBytes dd.data 4086 10 = MAGIC := by
  have hsize : resolvedSize c1Writer (zeroDest 40960) = 40960 := by
    simp only [resolvedSize, c1Writer, zeroDest, List.length_replicate,
      Option.getD_none]
  have hw := write_noFaults_ok c1Writer true (List.replicate 16 0) 4096
    (zeroDest 40960) (by decide) (by decide) (by decide)
    (by rw [hsize]; decide)
  rw [hsize] at hw
  have hu : c1Writer.uuid.getD (List.replicate 16 0) = sampleUuid := rfl
  have hlab : resolvedLabel c1Writer = shuffleLabel := rfl
  have hps : resolvedPageSize c1Writer 4096 = 4096 := rfl
  rw [hu, hlab, hps] at hw
  have h16 : sampleUuid.length = 16 := rfl
  have h4 : shuffleLabel.length = 4 := rfl
  have hpg : pagesU32 40960 4096 - 1 = 9 := by decide
  refine ⟨_, hw, ?_, ?_, ?_, ?_, ?_, ?_⟩
  · apply readBytes_eq_target _ [1, 0, 0, 0]
    intro i hi
    simp only [List.length_cons, List.length_nil] at hi
    rw [finalData_getD, h16, h4, if_neg (by omega), if_neg (by omega),
      if_neg (by omega), if_neg (by omega), if_neg (by omega),
      if_pos (by omega)]
    have : 1024 + i - 1024 = i := by omega
    rw [this]
  · apply readBytes_eq_target _ (u32NeBytes true 9)
    intro i hi
    rw [u32NeBytes_length] at hi
    rw [finalData_getD, h16, h4, if_neg (by omega), if_neg (by omega),
      if_neg (by omega), if_neg (by omega), if_pos (by omega), hpg]
    have : 1028 + i - 1028 = i := by omega
    rw [this]
  · apply readBytes_eq_target _ [0, 0, 0, 0]
    intro i hi
    simp only [List.length_cons, List.length_nil] at hi
    rw [finalData_getD, h16, h4, if_neg (by omega), if_neg (by omega),
      if_neg (by omega), if_pos (by omega)]
    exact (zeros4_getD i).symm
  · apply readBytes_eq_target _ sampleUuid
    intro i hi
    rw [h16] at hi
    rw [finalData_getD, h16, h4, if_neg (by omega), if_neg (by omega),
      if_pos (by omega)]
    have : 1036 + i - 1036 = i := by omega
    rw [this]
  · apply readBytes_eq_target _ shuffleLabel
    intro i hi
    rw [h4] at hi
    rw [finalData_getD, h16, h4, if_neg (by omega), if_pos (by omega)]
    have : 1052 + i - (1036 + 16) = i := by omega
    rw [this]
  · apply readBytes_eq_target _ MAGIC
    intro i hi
    rw [MAGIC_length] at hi
    rw [finalData_getD, if_pos (by omega)]
    have : 4086 + i - (4096 - 10) = i := by omega
    rw [this]

/-- Claim C2 counterexample: the configuration with explicit page size 5 and
total size 50 has 50 / 5 = 10 ≥ 10 pages and every destination operation
succeeds, yet `write` panics — the seek-target computation `page_size - 10`
underflows (an overflow-checked-build panic) — instead of succeeding and
returning the total size. -/
theorem claim_c2_counterexample :
    (10 : Nat) ≤ 50 / 5
    ∧ SwapWriter.write ⟨some sampleUuid, some [65], some 5, some 50⟩ true []
        4096 noFaults (zeroDest 50) = Outcome.panicked :=
  ⟨by decide, by decide⟩

/-- Claim C2 (amended): for every configuration whose resolved total size and
page size satisfy total_size / page_size ≥ 10 and — as the counterexample
forces — page_size ≥ 10, on a destination where every seek and write succeeds,
`write` succeeds, returns exactly the resolved total size, and leaves the
destination handle positioned at offset 0. -/
theorem claim_c2_amended (w : SwapWriter) (le : Bool) (ru : List Nat)
    (hostPs : Nat) (d : Dest)
    (hL : (resolvedLabel w).length ≤ 16) (hHost : hostPs < U64_CARD)
    (hps : 10 ≤ resolvedPageSize w hostPs)
    (ht : 10 ≤ resolvedSize w d / resolvedPageSize w hostPs) :
    ∃ d', SwapWriter.write w le ru hostPs noFaults d =
        Outcome.ok (resolvedSize w d) d'
      ∧ d'.pos = 0 :=
  ⟨_, write_noFaults_ok w le ru hostPs d hL hHost hps ht, rfl⟩

/-- Witness for C2: the explicit configuration with page size 2048 and total
size 20480 (10 pages) succeeds, returns 20480, and parks the cursor at 0. -/
theorem claim_c2_witness :
    ∃ d', SwapWriter.write ⟨some sampleUuid, some [65], some 2048, some 20480⟩
        true [] 4096 noFaults (zeroDest 0) = Outcome.ok 20480 d'
      ∧ d'.pos = 0 :=
  claim_c2_amended ⟨some sampleUuid, some [65], some 2048, some 20480⟩ true []
    4096 (zeroDest 0) (by decide) (by decide) (by decide) (by decide)

/-- Claim C3: for every configuration whose resolved geometry (nonzero page
size) yields fewer than 10 pages, fault-free `write` fails with `TooFewPages`
carrying exactly floor(total_size / page_size), and the destination's bytes
are exactly what they were before the call (only seeks may have happened). -/
theorem claim_c3 (w : SwapWriter) (le : Bool) (ru : List Nat) (hostPs : Nat)
    (d : Dest)
    (hL : (resolvedLabel w).length ≤ 16) (hHost : hostPs < U64_CARD)
    (h0 : resolvedPageSize w hostPs ≠ 0)
    (ht : resolvedSize w d / resolvedPageSize w hostPs < 10) :
    ∃ p', SwapWriter.write w le ru hostPs noFaults d =
      Outcome.err
        (Error.TooFewPages (resolvedSize w d / resolvedPageSize w hostPs))
        ⟨d.data, p'⟩ :=
  write_noFaults_tooFew w le ru hostPs d hL hHost h0 ht

/-- Witness for C3: page size 4096 with total size 8192 gives 2 pages;
`write` fails with `TooFewPages 2` and the (empty) destination is unchanged. -/
theorem claim_c3_witness :
    ∃ p', SwapWriter.write ⟨some sampleUuid, some [65], some 4096, some 8192⟩
        true [] 4096 noFaults (zeroDest 0) =
      Outcome.err (Error.TooFewPages 2) ⟨[], p'⟩ :=
  claim_c3 ⟨some sampleUuid, some [65], some 4096, some 8192⟩ true [] 4096
    (zeroDest 0) (by decide) (by decide) (by decide) (by decide)

/-- Claim C4: for every successful fault-free write, the four bytes at offset
1028 are the native encoding of `pagesU32 - 1`, where `pagesU32` is
floor(total_size / page_size) narrowed to 32 bits with saturation: it equals
the quotient whenever that fits in 32 bits and equals `U32_MAX` (the maximum
representable value, rather than a wrapped value) when it does not.  The
hypothesis `1042 ≤ page_size` keeps the magic signature, written later at
`page_size - 10`, clear of the last_page field, so that the bytes written at
1028 are the bytes a reader finds there. -/
theorem claim_c4 (w : SwapWriter) (le : Bool) (ru : List Nat) (hostPs : Nat)
    (d : Dest)
    (hL : (resolvedLabel w).length ≤ 16) (hHost : hostPs < U64_CARD)
    (hps : 1042 ≤ resolvedPageSize w hostPs)
    (ht : 10 ≤ resolvedSize w d / resolvedPageSize w hostPs) :
    ∃ d', SwapWriter.write w le ru hostPs noFaults d =
        Outcome.ok (resolvedSize w d) d'
      ∧ readBytes d'.data 1028 4 =
          u32NeBytes le
            (pagesU32 (resolvedSize w d) (resolvedPageSize w hostPs) - 1)
      ∧ (resolvedSize w d / resolvedPageSize w hostPs < 2 ^ 32 →
          pagesU32 (resolvedSize w d) (resolvedPageSize w hostPs) =
            resolvedSize w d / resolvedPageSize w hostPs)
      ∧ (2 ^ 32 ≤ resolvedSize w d / resolvedPageSize w hostPs →
          pagesU32 (resolvedSize w d) (resolvedPageSize w hostPs) = U32_MAX) := by
  have hw := write_noFaults_ok w le ru hostPs d hL hHost (by omega) ht
  refine ⟨_, hw, ?_, ?_, ?_⟩
  · have h4 : (u32NeBytes le
        (pagesU32 (resolvedSize w d) (resolvedPageSize w hostPs) - 1)).length = 4 :=
      u32NeBytes_length _ _
    rw [← h4]
    apply readBytes_eq_target
    intro i hi
    rw [h4] at hi
    rw [finalData_getD, if_neg (by omega), if_neg (by omega), if_neg (by omega),
      if_neg (by omega), if_pos (by omega)]
    have : 1028 + i - 1028 = i := by omega
    rw [this]
  · intro hfit
    simp only [pagesU32, U32_MAX]
    omega
  · intro hover
    simp only [pagesU32, U32_MAX]
    omega

/-- Witness for C4: page size 2048, total size 20480: the last_page field
holds the native bytes of 10 - 1 = 9, and 10 fits in 32 bits. -/
theorem claim_c4_witness :
    ∃ d', SwapWriter.write ⟨some sampleUuid, some [65], some 2048, some 20480⟩
        true [] 4096 noFaults (zeroDest 0) = Outcome.ok 20480 d'
      ∧ readBytes d'.data 1028 4 = u32NeBytes true 9
      ∧ ((20480 : Nat) / 2048 < 2 ^ 32 → pagesU32 20480 2048 = 20480 / 2048)
      ∧ ((2 : Nat) ^ 32 ≤ 20480 / 2048 → pagesU32 20480 2048 = U32_MAX) :=
  claim_c4 ⟨some sampleUuid, some [65], some 2048, some 20480⟩ true [] 4096
    (zeroDest 0) (by decide) (by decide) (by decide) (by decide)

set_option maxRecDepth 100000 in
/-- Claim C5 counterexample: on a big-endian host (`le = false`) a successful
write still stores the fixed bytes 01 00 00 00 in the version field, but the
native big-endian encoding of 1 is 00 00 00 01 — the field does not encode 1
in the host's native byte order there. -/
theorem claim_c5_counterexample :
    versionFieldOf
      (SwapWriter.write ⟨some sampleUuid, some [65], some 4096, some 40960⟩
        false [] 4096 noFaults (zeroDest 0)) = some [1, 0, 0, 0]
    ∧ u32NeBytes false 1 ≠ [1, 0, 0, 0] :=
  ⟨by decide, by decide⟩

/-- Claim C5 (amended): for every successful fault-free write, the four bytes
at offset 1024 are the fixed bytes 01 00 00 00 — the little-endian encoding of
1 — so the version field encodes the integer 1 in the host's native byte order
exactly on little-endian hosts; the last_page field at offset 1028, by
contrast, is written with `to_ne_bytes` and is native on every host.  The
hypothesis `1042 ≤ page_size` keeps the magic signature, written later at
`page_size - 10`, clear of both fields. -/
theorem claim_c5_amended (w : SwapWriter) (le : Bool) (ru : List Nat)
    (hostPs : Nat) (d : Dest)
    (hL : (resolvedLabel w).length ≤ 16) (hHost : hostPs < U64_CARD)
    (hps : 1042 ≤ resolvedPageSize w hostPs)
    (ht : 10 ≤ resolvedSize w d / resolvedPageSize w hostPs) :
    ∃ d', SwapWriter.write w le ru hostPs noFaults d =
        Outcome.ok (resolvedSize w d) d'
      ∧ readBytes d'.data 1024 4 = [1, 0, 0, 0]
      ∧ u32NeBytes true 1 = [1, 0, 0, 0]
      ∧ readBytes d'.data 1028 4 =
          u32NeBytes le
            (pagesU32 (resolvedSize w d) (resolvedPageSize w hostPs) - 1) := by
  have hw := write_noFaults_ok w le ru hostPs d hL hHost (by omega) ht
  refine ⟨_, hw, ?_, by decide, ?_⟩
  · apply readBytes_eq_target _ [1, 0, 0, 0]
    intro i hi
    simp only [List.length_cons, List.length_nil] at hi
    rw [finalData_getD, if_neg (by omega), if_neg (by omega), if_neg (by omega),
      if_neg (by omega), if_neg (by omega), if_pos (by omega)]
    have : 1024 + i - 1024 = i := by omega
    rw [this]
  · have h4 : (u32NeBytes le
        (pagesU32 (resolvedSize w d) (resolvedPageSize w hostPs) - 1)).length = 4 :=
      u32NeBytes_length _ _
    rw [← h4]
    apply readBytes_eq_target
    intro i hi
    rw [h4] at hi
    rw [finalData_getD, if_neg (by omega), if_neg (by omega), if_neg (by omega),
      if_neg (by omega), if_pos (by omega)]
    have : 1028 + i - 1028 = i := by omega
    rw [this]

/-- Witness for C5: the little-endian instance of the amended claim at page
size 2048 and total size 20480. -/
theorem claim_c5_witness :
    ∃ d', SwapWriter.write ⟨some sampleUuid, some [65], some 2048, some 20480⟩
        true [] 4096 noFaults (zeroDest 0) = Outcome.ok 20480 d'
      ∧ readBytes d'.data 1024 4 = [1, 0, 0, 0]
      ∧ u32NeBytes true 1 = [1, 0, 0, 0]
      ∧ readBytes d'.data 1028 4 = u32NeBytes true 9 :=
  claim_c5_amended ⟨some sampleUuid, some [65], some 2048, some 20480⟩ true []
    4096 (zeroDest 0) (by decide) (by decide) (by decide) (by decide)

set_option maxRecDepth 100000 in
/-- Claim C6 counterexample: `set_label` accepts the 8-byte label
"HGFEDCBA" (bytes 72..65), yet a later successful write with page size 1060
(total size 10600, 10 pages) leaves the magic signature's tail "APSPACE2" at
offset 1052 instead of the stored label: the magic, written afterwards at
1060 - 10 = 1050, overwrites the label field. -/
theorem claim_c6_counterexample :
    SwapWriter.set_label SwapWriter.new [72, 71, 70, 69, 68, 67, 66, 65] =
      Except.ok ⟨none, some [72, 71, 70, 69, 68, 67, 66, 65], none, none⟩
    ∧ labelFieldOf
        (SwapWriter.write
          ⟨some sampleUuid, some [72, 71, 70, 69, 68, 67, 66, 65], some 1060,
            some 10600⟩ true [] 4096 noFaults (zeroDest 0)) 8 =
        some [65, 80, 83, 80, 65, 67, 69, 50]
    ∧ [65, 80, 83, 80, 65, 67, 69, 50] ≠ [72, 71, 70, 69, 68, 67, 66, 65] :=
  ⟨rfl, by decide, by decide⟩

/-- Claim C6 (amended): `set_label` succeeds exactly when the label's byte
length is ≤ 16, storing the label and changing nothing else; for longer
labels it fails with `LabelTooLong` and produces no configuration (the prior
one is untouched).  A later successful fault-free write places the stored
bytes unchanged at offset 1052 provided — as the counterexample forces — the
magic signature region does not overlap the label field
(1052 + label length ≤ page_size - 10). -/
theorem claim_c6_amended (w : SwapWriter) (l : List Nat) (le : Bool)
    (ru : List Nat) (hostPs : Nat) (d : Dest) :
    (l.length ≤ 16 →
      SwapWriter.set_label w l = Except.ok { w with label := some l })
    ∧ (16 < l.length →
      SwapWriter.set_label w l = Except.error Error.LabelTooLong)
    ∧ (∀ (hwl : w.label = some l) (hL : l.length ≤ 16)
        (hHost : hostPs < U64_CARD)
        (hps : 10 ≤ resolvedPageSize w hostPs)
        (ht : 10 ≤ resolvedSize w d / resolvedPageSize w hostPs)
        (hu : (w.uuid.getD ru).length = 16)
        (hmagic : 1052 + l.length ≤ resolvedPageSize w hostPs - 10),
        ∃ d', SwapWriter.write w le ru hostPs noFaults d =
            Outcome.ok (resolvedSize w d) d'
          ∧ readBytes d'.data 1052 l.length = l) := by
  refine ⟨?_, ?_, ?_⟩
  · intro h
    simp only [SwapWriter.set_label, MAXIMUM_LABEL_BYTES]
    rw [if_neg (by omega)]
  · intro h
    simp only [SwapWriter.set_label, MAXIMUM_LABEL_BYTES]
    rw [if_pos (by omega)]
  · intro hwl hL hHost hps ht hu hmagic
    have hrl : resolvedLabel w = l := by simp [resolvedLabel, hwl]
    have hw := write_noFaults_ok w le ru hostPs d (by rw [hrl]; exact hL)
      hHost hps ht
    rw [hrl] at hw
    refine ⟨_, hw, ?_⟩
    apply readBytes_eq_target _ l
    intro i hi
    rw [finalData_getD, hu, if_neg (by omega), if_pos (by omega)]
    have : 1052 + i - (1036 + 16) = i := by omega
    rw [this]

/-- Witness for C6: the 4-byte label "🔀" with page size 4096: `set_label`
stores it and a successful write round-trips it to offset 1052. -/
theorem claim_c6_witness :
    (shuffleLabel.length ≤ 16 →
      SwapWriter.set_label ⟨some sampleUuid, some shuffleLabel, some 4096,
        some 40960⟩ shuffleLabel =
        Except.ok ⟨some sampleUuid, some shuffleLabel, some 4096, some 40960⟩)
    ∧ (16 < shuffleLabel.length →
      SwapWriter.set_label ⟨some sampleUuid, some shuffleLabel, some 4096,
        some 40960⟩ shuffleLabel = Except.error Error.LabelTooLong)
    ∧ ∃ d', SwapWriter.write ⟨some sampleUuid, some shuffleLabel, some 4096,
          some 40960⟩ true [] 4096 noFaults (zeroDest 0) =
        Outcome.ok 40960 d'
      ∧ readBytes d'.data 1052 shuffleLabel.length = shuffleLabel := by
  have h := claim_c6_amended
    ⟨some sampleUuid, some shuffleLabel, some 4096, some 40960⟩ shuffleLabel
    true [] 4096 (zeroDest 0)
  exact ⟨h.1, h.2.1, h.2.2 rfl (by decide) (by decide) (by decide) (by decide)
    (by decide) (by decide)⟩

/-- Claim C7: with total size unset, fault-free auto-detection seeks the
destination to its end, records the resulting absolute offset — which equals
the destination's byte count N — and seeks back to offset 0, so that header
emission starts from a handle positioned at 0 and uses the detected N as the
total size; and any seek or position-query failure during detection is
surfaced as `SizeDetection`. -/
theorem claim_c7 (w : SwapWriter) (le : Bool) (ru : List Nat) (hostPs : Nat)
    (f : Faults) (d : Dest)
    (hsz : w.size = none) (hL : (resolvedLabel w).length ≤ 16)
    (hHost : hostPs < U64_CARD) :
    (detect_size_bytes noFaults (⟨d, 0⟩ : HandleState) =
        Except.ok (d.data.length, ⟨⟨d.data, 0⟩, 3⟩)
      ∧ SwapWriter.write w le ru hostPs noFaults d =
        emitHeader le (w.uuid.getD ru) (resolvedLabel w)
          (resolvedPageSize w hostPs) d.data.length noFaults ⟨⟨d.data, 0⟩, 3⟩)
    ∧ ∀ e d₀, detect_size_bytes f ⟨d, 0⟩ = Except.error (e, d₀) →
        SwapWriter.write w le ru hostPs f d =
          Outcome.err (Error.SizeDetection e) d₀ :=
  ⟨⟨detect_size_bytes_noFaults ⟨d, 0⟩,
    write_noFaults_detected w le ru hostPs d hsz hL hHost⟩,
   fun e d₀ hdet => write_detect_error w le ru hostPs f d e d₀ hsz hL hHost hdet⟩

/-- Witness for C7: a 3-byte destination with the cursor parked at 2: the
detected size is 3 and the cursor is back at 0; the instance also covers the
failure-surfacing clause (for the oracle that fails the first operation with
code 9, `write` returns `SizeDetection 9`). -/
theorem claim_c7_witness :
    (detect_size_bytes noFaults (⟨⟨[7, 7, 7], 2⟩, 0⟩ : HandleState) =
        Except.ok (3, ⟨⟨[7, 7, 7], 0⟩, 3⟩)
      ∧ SwapWriter.write ⟨some sampleUuid, some [65], some 4096, none⟩ true []
          4096 noFaults ⟨[7, 7, 7], 2⟩ =
        emitHeader true sampleUuid [65] 4096 3 noFaults ⟨⟨[7, 7, 7], 0⟩, 3⟩)
    ∧ ∀ e d₀,
        detect_size_bytes (fun k => if k = 0 then some 9 else none)
          ⟨⟨[7, 7, 7], 2⟩, 0⟩ = Except.error (e, d₀) →
        SwapWriter.write ⟨some sampleUuid, some [65], some 4096, none⟩ true []
          4096 (fun k => if k = 0 then some 9 else none) ⟨[7, 7, 7], 2⟩ =
          Outcome.err (Error.SizeDetection e) d₀ :=
  claim_c7 ⟨some sampleUuid, some [65], some 4096, none⟩ true [] 4096
    (fun k => if k = 0 then some 9 else none) ⟨[7, 7, 7], 2⟩ rfl (by decide)
    (by decide)

/-- Claim C8 counterexample: page size 0 is a caller-supplied `u64` value the
claim covers, yet `write` panics — the division `total_size / page_size`
divides by zero (a panic in every Rust build profile) — instead of returning
a value or an error. -/
theorem claim_c8_counterexample :
    SwapWriter.write ⟨some sampleUuid, some [65], some 0, some 50⟩ true [] 4096
      noFaults (zeroDest 50) = Outcome.panicked := by decide

/-- Claim C8 (amended): `write` never panics provided the resolved page size
is nonzero and — as the counterexample family forces — either it is at least
10 or the resolved page count is below 10: with page size 0 the division
`total_size / page_size` panics, and with page size 1..9 and at least 10
pages the seek-target computation `page_size - 10` underflows (a panic in
overflow-checked builds).  Under those hypotheses every fault pattern and
destination yields a value or one of the defined errors. -/
theorem claim_c8_amended (w : SwapWriter) (le : Bool) (ru : List Nat)
    (hostPs : Nat) (f : Faults) (d : Dest)
    (h0 : resolvedPageSize w hostPs ≠ 0)
    (h : 10 ≤ resolvedPageSize w hostPs ∨
      resolvedSize w d / resolvedPageSize w hostPs < 10) :
    SwapWriter.write w le ru hostPs f d ≠ Outcome.panicked := by
  rcases write_cases w le ru hostPs f d h0 h with ⟨d', hd, _⟩
  intro heq
  rw [heq] at hd
  simp [destOf] at hd

/-- Witness for C8: the configuration with page size 2048 and total size
20480 never panics under the fault-free oracle. -/
theorem claim_c8_witness :
    SwapWriter.write ⟨some sampleUuid, some [65], some 2048, some 20480⟩ true
      [] 4096 noFaults (zeroDest 0) ≠ Outcome.panicked :=
  claim_c8_amended ⟨some sampleUuid, some [65], some 2048, some 20480⟩ true []
    4096 noFaults (zeroDest 0) (by decide) (Or.inl (by decide))

/-- Claim C9: two fault-free invocations of the same fully explicit
configuration (identifier, label, page size and total size all set) against
independently sized zero-initialized destinations both succeed and produce
byte-identical header regions: the 44 header bytes at 1024 and the 10 magic
bytes at page_size - 10. -/
theorem claim_c9 (le : Bool) (ru : List Nat) (hostPs : Nat)
    (u l : List Nat) (p sz N1 N2 : Nat)
    (hL : l.length ≤ 16) (hHost : hostPs < U64_CARD)
    (hp : 10 ≤ p) (hsp : 10 ≤ sz / p) (hN1 : sz ≤ N1) (hN2 : sz ≤ N2) :
    ∃ d1 d2,
      SwapWriter.write ⟨some u, some l, some p, some sz⟩ le ru hostPs noFaults
        (zeroDest N1) = Outcome.ok sz d1
      ∧ SwapWriter.write ⟨some u, some l, some p, some sz⟩ le ru hostPs
          noFaults (zeroDest N2) = Outcome.ok sz d2
      ∧ readBytes d1.data 1024 44 = readBytes d2.data 1024 44
      ∧ readBytes d1.data (p - 10) 10 = readBytes d2.data (p - 10) 10 := by
  have hw1 := write_noFaults_ok ⟨some u, some l, some p, some sz⟩ le ru hostPs
    (zeroDest N1) (by simpa [resolvedLabel] using hL) hHost
    (by simpa [resolvedPageSize] using hp)
    (by simpa [resolvedSize, resolvedPageSize] using hsp)
  have hw2 := write_noFaults_ok ⟨some u, some l, some p, some sz⟩ le ru hostPs
    (zeroDest N2) (by simpa [resolvedLabel] using hL) hHost
    (by simpa [resolvedPageSize] using hp)
    (by simpa [resolvedSize, resolvedPageSize] using hsp)
  simp only [resolvedSize, resolvedLabel, resolvedPageSize, Option.getD_some] at hw1 hw2
  refine ⟨_, _, hw1, hw2, ?_, ?_⟩
  · apply readBytes_congr
    intro i _
    simp only [zeroDest]
    rw [finalData_getD, finalData_getD]
    split_ifs <;> first | rfl | rw [getD_replicate_zero, getD_replicate_zero]
  · apply readBytes_congr
    intro i _
    simp only [zeroDest]
    rw [finalData_getD, finalData_getD]
    split_ifs <;> first | rfl | rw [getD_replicate_zero, getD_replicate_zero]

/-- Witness for C9: page size 2048, total size 20480, destinations of 20480
and 40960 zero bytes. -/
theorem claim_c9_witness :
    ∃ d1 d2,
      SwapWriter.write ⟨some sampleUuid, some [65], some 2048, some 20480⟩
        true [] 4096 noFaults (zeroDest 20480) = Outcome.ok 20480 d1
      ∧ SwapWriter.write ⟨some sampleUuid, some [65], some 2048, some 20480⟩
          true [] 4096 noFaults (zeroDest 40960) = Outcome.ok 20480 d2
      ∧ readBytes d1.data 1024 44 = readBytes d2.data 1024 44
      ∧ readBytes d1.data (2048 - 10) 10 = readBytes d2.data (2048 - 10) 10 :=
  claim_c9 true [] 4096 sampleUuid [65] 2048 20480 20480 40960 (by decide)
    (by decide) (by decide) (by decide) (by decide) (by decide)

/-- Claim C10 counterexample: with page size 16 (total size 160, 10 pages)
the write succeeds but stores the magic signature at offset 16 - 10 = 6,
inside the reserved region 0..1023: byte 6 of the zero-initialized
destination becomes 83 (ASCII 'S'). -/
theorem claim_c10_counterexample :
    byteAtOf
      (SwapWriter.write ⟨some sampleUuid, some [65], some 16, some 160⟩ true []
        4096 noFaults (zeroDest 160)) 6 = some 83
    ∧ (zeroDest 160).data.getD 6 0 = 0 :=
  ⟨by decide, by decide⟩

/-- Claim C10 (amended): for every write call — successful or not, under any
fault pattern — whose resolved page size is at least 1034 (so that the magic
signature's offset `page_size - 10` lies at or beyond 1024, as the
counterexample forces), the bytes of the destination at offsets 0 through
1023 are never written and remain exactly as they were before the call. -/
theorem claim_c10_amended (w : SwapWriter) (le : Bool) (ru : List Nat)
    (hostPs : Nat) (f : Faults) (d : Dest)
    (hps : 1034 ≤ resolvedPageSize w hostPs) :
    ∃ d', destOf (SwapWriter.write w le ru hostPs f d) = some d'
      ∧ readBytes d'.data 0 1024 = readBytes d.data 0 1024 := by
  rcases write_cases w le ru hostPs f d (by omega) (Or.inl (by omega)) with
    ⟨d', hd, hfr⟩
  exact ⟨d', hd, hfr (by omega)⟩

/-- Witness for C10: page size 2048 with total size 20480 on a 50-byte
destination leaves bytes 0..1023 as they were. -/
theorem claim_c10_witness :
    ∃ d', destOf
        (SwapWriter.write ⟨some sampleUuid, some [65], some 2048, some 20480⟩
          true [] 4096 noFaults (zeroDest 50)) = some d'
      ∧ readBytes d'.data 0 1024 = readBytes (zeroDest 50).data 0 1024 :=
  claim_c10_amended ⟨some sampleUuid, some [65], some 2048, some 20480⟩ true
    [] 4096 noFaults (zeroDest 50) (by decide)

end Mkswap
